import Mathlib

/-!
# Verification of `setup.js` (Dragon-InterActive/cli-setup)

A shallow embedding of the bootstrap script `src/setup.js`.

The script is a linear sequence of effects: console output, interactive
prompts, synchronous subprocesses and file operations.  The embedding threads
an explicit `State` (the file tree and the chronological list of effects
performed so far) through one Lean function per JavaScript function.

What the script cannot decide itself is supplied by a `World`:
* the exit status of every subprocess (`execSync` throws on a non-zero status),
* the answers of the interactive prompts (`inquirer.prompt`),
* `path.join` and the four `DATABASE_*` process environment variables.
Each oracle receives the whole history of effects, so two calls with the same
arguments may answer differently.

Modelling scope: the file tree is changed by the script's own file operations
only (subprocesses are represented by their exit status), prompts always
resolve, and file operations fail only where the kind of the target makes them
fail (`unlinkSync`/`writeFileSync` on a directory).  `isModuleInstalled`
(lines 12-19) is never called and is not modelled.
-/

namespace Setup

/-! ## JavaScript objects and their enumeration order -/

/-- A plain JavaScript object with string keys: its own properties in the order
they were created (keys are distinct). -/
abbrev JSObject (α : Type) := List (String × α)

/-- Value of a decimal digit, read left to right into an accumulator. -/
def digitsValue (cs : List Char) : Nat :=
  cs.foldl (fun acc c => 10 * acc + (c.toNat - 48)) 0

/-- ECMAScript "array index": a key that is the canonical decimal numeral of an
integer `i` with `0 ≤ i < 2^32 - 1`. -/
def arrayIndex? (key : String) : Option Nat :=
  match key.data with
  | [] => none
  | ['0'] => some 0
  | c :: cs =>
    if c = '0' then none
    else if (c :: cs).all Char.isDigit then
      if digitsValue (c :: cs) < 4294967295 then some (digitsValue (c :: cs)) else none
    else none

/-- Whether a key is an array index. -/
def isArrayIndex (key : String) : Bool := (arrayIndex? key).isSome

/-- `Object.entries(obj)`: own enumerable string-keyed properties in the order of
`OrdinaryOwnPropertyKeys`: array-index keys first, in ascending numeric order,
then all other keys in order of property creation. -/
def objectEntries {α : Type} (obj : JSObject α) : List (String × α) :=
  (obj.filter (fun e => isArrayIndex e.1)).insertionSort
      (fun a b => (arrayIndex? a.1).getD 0 ≤ (arrayIndex? b.1).getD 0)
    ++ obj.filter (fun e => !isArrayIndex e.1)

/-- `Object.keys(obj)`. -/
def objectKeys {α : Type} (obj : JSObject α) : List String :=
  (objectEntries obj).map Prod.fst

/-- Template-literal rendering of a value that may be `undefined`. -/
def render (v : Option String) : String := v.getD "undefined"

/-! ## Configuration, file tree, effects -/

/-- A prompt definition; the script forwards it to `inquirer` uninterpreted. -/
structure Question where
  type : String
  name : String
  message : String
  choices : List String
  deriving DecidableEq, Repr

/-- The parsed `setup.config.json` (line 9).  `none` is an absent key. -/
structure Config where
  packageManager : Option (List String)
  environments : JSObject (List Question)
  sql_files : Option (List String)
  cleanup_after_production : Option Bool
  docker_compose : Option Bool
  deriving Repr

/-- What a path names. -/
inductive Node where
  | file (content : String)
  | dir
  deriving DecidableEq, Repr

/-- The file tree below the working directory, keyed by the path as the script
spells it. -/
abbrev FS := List (String × Node)

/-- Exceptions the modelled operations throw. -/
inductive JSError where
  | commandFailed (cmd : String) (status : Nat)
  | isDirectory (op : String) (path : String)
  deriving DecidableEq, Repr

/-- One observable effect of the script. -/
inductive Event where
  | log (msg : String)
  | error (msg : String) (err : JSError)
  | promptList (name : String) (message : String) (choices : List String) (answer : String)
  | promptQuestions (questions : List Question) (answers : JSObject String)
  | exec (cmd : String) (status : Nat)
  | writeFile (path : String) (content : String)
  | unlink (path : String)
  | rm (path : String)
  deriving DecidableEq, Repr

/-- The file tree and the effects performed so far, oldest first. -/
structure State where
  fs : FS
  trace : List Event
  deriving DecidableEq, Repr

/-- Everything outside the script's control. -/
structure World where
  /-- Exit status of the subprocess started with this command line. -/
  exitStatus : List Event → String → Nat
  /-- Answer to a one-question `list` prompt, given its name and choices. -/
  choose : List Event → String → List String → String
  /-- The answers object `inquirer.prompt(questions)` resolves to. -/
  answers : List Event → List Question → JSObject String
  /-- The platform's `path.join` for two segments. -/
  pathJoin : String → String → String
  DATABASE_PASSWORD : Option String
  DATABASE_HOST : Option String
  DATABASE_USER : Option String
  DATABASE_NAME : Option String

/-- Result of a function that may throw: the state reached is kept either way. -/
inductive Outcome (α : Type) where
  | ok (val : α) (s : State)
  | thrown (err : JSError) (s : State)
  deriving Repr

/-- State reached by an outcome. -/
def Outcome.state {α : Type} : Outcome α → State
  | .ok _ s => s
  | .thrown _ s => s

/-- Whether the outcome is a normal return. -/
def Outcome.isOk {α : Type} : Outcome α → Bool
  | .ok _ _ => true
  | .thrown _ _ => false

/-! ## Primitive operations -/

/-- `console.log(msg)`. -/
def log (msg : String) (s : State) : State :=
  { s with trace := s.trace ++ [Event.log msg] }

/-- `fs.existsSync(path)`. -/
def existsSync (fs : FS) (path : String) : Bool :=
  fs.any (fun e => e.1 == path)

/-- `execSync(cmd, ...)`: runs the subprocess and throws when it exits non-zero. -/
def execSync (w : World) (cmd : String) (s : State) : Outcome Unit :=
  let status := w.exitStatus s.trace cmd
  let s1 := { s with trace := s.trace ++ [Event.exec cmd status] }
  if status = 0 then .ok () s1 else .thrown (.commandFailed cmd status) s1

/-- `fs.writeFileSync(path, content)`: creates or replaces a regular file. -/
def writeFileSync (path content : String) (s : State) : Outcome Unit :=
  if s.fs.any (fun e => e.1 == path && e.2 == Node.dir) then
    .thrown (.isDirectory "open" path) s
  else
    .ok () { fs := s.fs.filter (fun e => e.1 != path) ++ [(path, Node.file content)],
             trace := s.trace ++ [Event.writeFile path content] }

/-- `fs.unlinkSync(path)` on an existing path: removes a file, throws on a
directory. -/
def unlinkSync (path : String) (s : State) : Outcome Unit :=
  if s.fs.any (fun e => e.1 == path && e.2 == Node.dir) then
    .thrown (.isDirectory "unlink" path) s
  else
    .ok () { fs := s.fs.filter (fun e => e.1 != path),
             trace := s.trace ++ [Event.unlink path] }

/-- Whether `path` is `dir` or lies below it. -/
def isWithin (dir path : String) : Bool :=
  path == dir || (dir ++ "/").data.isPrefixOf path.data

/-- `fs.rmSync(path, recursive, force)`: removes the path and all below it. -/
def rmSync (path : String) (s : State) : State :=
  { fs := s.fs.filter (fun e => !isWithin path e.1),
    trace := s.trace ++ [Event.rm path] }

/-! ## The script's functions -/

/-- `detectPackageManager` (lines 22-38).  `undefined` is `none`. -/
def detectPackageManager (w : World) (config : Config) (s : State) : Option String × State :=
  -- `config.packageManager || ["npm"]`: only an absent (or null) value is falsy,
  -- an empty array is truthy
  let availableManagers := config.packageManager.getD ["npm"]
  if availableManagers.length > 1 then
    let message := "Which package manager do you want to use?"
    let answer := w.choose s.trace "packageManager" availableManagers
    (some answer,
      { s with trace := s.trace ++
          [Event.promptList "packageManager" message availableManagers answer] })
  else
    (availableManagers[0]?, s)

/-- `initializeProject` (lines 41-45). -/
def initializeProject (w : World) (packageManager : Option String) (s : State) : Outcome Unit :=
  let s1 := log ("📦 Installing dependencies using " ++ render packageManager ++ "...") s
  match execSync w (render packageManager ++ " install") s1 with
  | .thrown err s2 => .thrown err s2
  | .ok _ s2 => .ok () (log "✅ Dependencies installed!" s2)

/-- `selectEnvironment` (lines 48-61). -/
def selectEnvironment (w : World) (config : Config) (s : State) : String × State :=
  let envChoices := objectKeys config.environments
  match envChoices with
  | [only] => (only, s)
  | _ =>
    let answer := w.choose s.trace "environment" envChoices
    (answer,
      { s with trace := s.trace ++
          [Event.promptList "environment" "Select the environment:" envChoices answer] })

/-- The command line of line 85 for one SQL file path. -/
def psqlCommand (w : World) (filePath : String) : String :=
  "PGPASSWORD=\"" ++ render w.DATABASE_PASSWORD ++ "\" psql -h " ++ render w.DATABASE_HOST
    ++ " -U " ++ render w.DATABASE_USER ++ " -d " ++ render w.DATABASE_NAME
    ++ " -f " ++ filePath

/-- The `for` loop of `runDatabaseSetup` (lines 78-86). -/
def runSqlFiles (w : World) (sqlFiles : List String) (s : State) : Outcome Unit :=
  match sqlFiles with
  | [] => .ok () s
  | file :: rest =>
    let filePath := w.pathJoin "sql" file
    if !existsSync s.fs filePath then
      runSqlFiles w rest (log ("⚠️ SQL file not found: " ++ file) s)
    else
      match execSync w (psqlCommand w filePath) (log ("📑 Executing " ++ file ++ "...") s) with
      | .thrown err s1 => .thrown err s1
      | .ok _ s1 => runSqlFiles w rest s1

/-- `runDatabaseSetup` (lines 64-88). -/
def runDatabaseSetup (w : World) (config : Config) (s : State) : Outcome Unit :=
  let s1 := log "📂 Checking for SQL files..." s
  if !existsSync s1.fs "sql" then
    .ok () (log "⚠️ No `sql/` directory found. Skipping database setup." s1)
  else
    let sqlFiles := config.sql_files.getD []
    if sqlFiles.length = 0 then
      .ok () (log "⚠️ No SQL files defined in `setup.config.json`. Skipping database setup." s1)
    else
      match runSqlFiles w sqlFiles (log "📂 Running SQL files in order..." s1) with
      | .thrown err s2 => .thrown err s2
      | .ok _ s2 => .ok () (log "✅ Database setup complete!" s2)

/-- The text of line 108: every entry as `key=value`, joined by one newline. -/
def envContent (answers : JSObject String) : String :=
  "\n".intercalate ((objectEntries answers).map (fun e => e.1 ++ "=" ++ e.2))

/-- `setupWizard` (lines 91-114). -/
def setupWizard (w : World) (config : Config) (s : State) : Outcome Unit :=
  if existsSync s.fs ".env" then
    .ok () (log "⚠️ .env file already exists! Aborting setup." s)
  else
    let (environment, s1) := selectEnvironment w config s
    match config.environments.lookup environment with
    | none | some [] =>
      .ok () (log ("⚠️ No questions defined for " ++ environment ++ ". Skipping setup wizard.") s1)
    | some (q :: qs) =>
      let questions := q :: qs
      let answers := w.answers s1.trace questions
      let s2 := { s1 with trace := s1.trace ++ [Event.promptQuestions questions answers] }
      match writeFileSync ".env" (envContent answers) s2 with
      | .thrown err s3 => .thrown err s3
      | .ok _ s3 =>
        runDatabaseSetup w config
          (log ("✅ .env file created for " ++ environment ++ " environment!") s3)

/-- First loop of `cleanupSetupFiles` (lines 124-129). -/
def removeFiles (files : List String) (s : State) : Outcome Unit :=
  match files with
  | [] => .ok () s
  | file :: rest =>
    if existsSync s.fs file then
      match unlinkSync file s with
      | .thrown err s1 => .thrown err s1
      | .ok _ s1 => removeFiles rest (log ("🗑️ Removed: " ++ file) s1)
    else removeFiles rest s

/-- Second loop of `cleanupSetupFiles` (lines 132-137). -/
def removeDirectories (dirs : List String) (s : State) : State :=
  match dirs with
  | [] => s
  | dir :: rest =>
    if existsSync s.fs dir then
      removeDirectories rest (log ("🗑️ Removed directory: " ++ dir) (rmSync dir s))
    else removeDirectories rest s

/-- `cleanupSetupFiles` (lines 117-139). -/
def cleanupSetupFiles (config : Config) (s : State) : Outcome Unit :=
  if config.cleanup_after_production != some true then .ok () s
  else
    let s1 := log "🗑️ Cleaning up setup files..." s
    let filesToRemove := ["setup.js", "setup.config.json"]
    let directoriesToRemove := ["sql"]
    match removeFiles filesToRemove s1 with
    | .thrown err s2 => .thrown err s2
    | .ok _ s2 => .ok () (log "✅ Cleanup complete!" (removeDirectories directoriesToRemove s2))

/-- `runDockerCompose` (lines 142-148). -/
def runDockerCompose (w : World) (config : Config) (s : State) : Outcome Unit :=
  if config.docker_compose = some true then
    match execSync w "docker-compose up -d" (log "🐳 Running Docker-Compose..." s) with
    | .thrown err s1 => .thrown err s1
    | .ok _ s1 => .ok () (log "✅ Docker-Compose started!" s1)
  else .ok () s

/-- The steps of the `try` block before the cleanup decision (lines 153-156). -/
def setupSteps (w : World) (config : Config) (s : State) : Outcome Unit :=
  let (packageManager, s1) := detectPackageManager w config s
  match initializeProject w packageManager s1 with
  | .thrown err s2 => .thrown err s2
  | .ok _ s2 =>
    match setupWizard w config s2 with
    | .thrown err s3 => .thrown err s3
    | .ok _ s3 => runDockerCompose w config s3

/-- The whole `try` block (lines 153-161). -/
def tryBlock (w : World) (config : Config) (s : State) : Outcome Unit :=
  match setupSteps w config s with
  | .thrown err s4 => .thrown err s4
  | .ok _ s4 =>
    let (environment, s5) := selectEnvironment w config s4
    if environment = "prod" then cleanupSetupFiles config s5 else .ok () s5

/-- The top-level async function (lines 151-165): the `try` block and its
`catch`, which logs once. -/
def main (w : World) (config : Config) (s : State) : State :=
  match tryBlock w config s with
  | .ok _ s1 => s1
  | .thrown err s1 => { s1 with trace := s1.trace ++ [Event.error "❌ Error during setup:" err] }

/-! ## Observations on a trace -/

/-- Command lines of the subprocesses started, in order. -/
def executed : List Event → List String
  | [] => []
  | Event.exec cmd _ :: rest => cmd :: executed rest
  | _ :: rest => executed rest

/-- Messages written with `console.log`, in order. -/
def logged : List Event → List String
  | [] => []
  | Event.log msg :: rest => msg :: logged rest
  | _ :: rest => logged rest

/-- Whether the event is an interactive prompt. -/
def Event.isPrompt : Event → Bool
  | .promptList _ _ _ _ => true
  | .promptQuestions _ _ => true
  | _ => false

/-- Whether the event removes a file or a directory. -/
def Event.isRemoval : Event → Bool
  | .unlink _ => true
  | .rm _ => true
  | _ => false

/-- Whether the event is a `console.error` call. -/
def Event.isError : Event → Bool
  | .error _ _ => true
  | _ => false

/-- Whether the event is a subprocess that exited non-zero. -/
def Event.isFailedExec : Event → Bool
  | .exec _ status => status != 0
  | _ => false

/-! ## Reading a `.env` text back -/

/-- The pieces of `cs` between occurrences of `sep`, as `split` yields them. -/
def splitChars (sep : Char) : List Char → List (List Char)
  | [] => [[]]
  | c :: cs =>
    if c = sep then [] :: splitChars sep cs
    else (c :: (splitChars sep cs).headD []) :: (splitChars sep cs).tail

/-- Cuts `cs` at the first occurrence of `sep` (which is dropped). -/
def breakAt (sep : Char) : List Char → List Char × List Char
  | [] => ([], [])
  | c :: cs => if c = sep then ([], cs) else ((c :: (breakAt sep cs).1), (breakAt sep cs).2)

/-- Lines of a text: `content.split("\n")`. -/
def splitLines (content : String) : List String :=
  (splitChars '\n' content.data).map String.mk

/-- Reads a `.env` text: split on newlines, then each line at its first `=`. -/
def parseEnv (content : String) : List (String × String) :=
  (splitChars '\n' content.data).map
    (fun line => (String.mk (breakAt '=' line).1, String.mk (breakAt '=' line).2))

/-! ## Proof vocabulary -/

/-- No failed subprocess and no `console.error` among the events. -/
def Calm (t : List Event) : Prop :=
  ∀ e ∈ t, e.isFailedExec = false ∧ e.isError = false

/-- Shape of the trace an outcome may carry: a normal return has a calm trace;
a thrown `commandFailed` has a calm trace followed by that one failed
subprocess; a thrown file error has a calm trace. -/
def Orderly {α : Type} : Outcome α → Prop
  | .ok _ s1 => Calm s1.trace
  | .thrown err s1 =>
    (∃ d cmd status, Calm d ∧ status ≠ 0 ∧ err = JSError.commandFailed cmd status
        ∧ s1.trace = d ++ [Event.exec cmd status])
    ∨ ((∃ op path, err = JSError.isDirectory op path) ∧ Calm s1.trace)

/-- Every entry of `s` is still present in `s1` and no removal effect was added. -/
def Keeps (s s1 : State) : Prop :=
  (∀ e ∈ s.fs, e ∈ s1.fs) ∧ s1.trace.filter Event.isRemoval = s.trace.filter Event.isRemoval

/-! ## Concrete worlds, configurations and file trees for evaluation -/

/-- A world in which every subprocess succeeds, list prompts pick the first
choice and the question prompt answers each question with its message text. -/
def calmWorld : World where
  exitStatus := fun _ _ => 0
  choose := fun _ _ choices => choices.headD ""
  answers := fun _ qs => qs.map (fun q => (q.name, q.message))
  pathJoin := fun a b => a ++ "/" ++ b
  DATABASE_PASSWORD := some "pw"
  DATABASE_HOST := some "localhost"
  DATABASE_USER := some "app"
  DATABASE_NAME := some "appdb"

/-- A world like `calmWorld` in which every subprocess exits with status 1. -/
def failingWorld : World :=
  { calmWorld with exitStatus := fun _ _ => 1 }

/-- A question with the given name; its message doubles as the canned answer. -/
def ask (name answer : String) : Question :=
  { type := "input", name := name, message := answer, choices := [] }

/-- A production-named environment with cleanup switched on. -/
def productionCleanup : Config :=
  { packageManager := some ["npm"], environments := [("production", [ask "PORT" "80"])],
    sql_files := some ["a.sql"], cleanup_after_production := some true,
    docker_compose := none }

/-- An environment named `prod` with cleanup switched on. -/
def prodCleanup : Config :=
  { packageManager := some ["npm"], environments := [("prod", [ask "PORT" "80"])],
    sql_files := some ["a.sql"], cleanup_after_production := some true,
    docker_compose := none }

/-- A production-only configuration with cleanup switched off. -/
def prodNoCleanup : Config :=
  { packageManager := some ["npm"], environments := [("prod", [ask "PORT" "80"])],
    sql_files := some ["a.sql"], cleanup_after_production := some false,
    docker_compose := some true }

/-- A project directory holding the setup files and one SQL file. -/
def projectTree : FS :=
  [("setup.js", Node.file "..."), ("setup.config.json", Node.file "..."),
   ("sql", Node.dir), ("sql/a.sql", Node.file "select 1;")]

/-! ## Helper lemmas -/

theorem objectEntries_single {α : Type} (key : String) (v : α) :
    objectEntries [(key, v)] = [(key, v)] := by
  unfold objectEntries
  cases h : isArrayIndex key <;> simp [h]

theorem objectKeys_single {α : Type} (key : String) (v : α) :
    objectKeys [(key, v)] = [key] := by
  simp [objectKeys, objectEntries_single]

@[simp]
theorem executed_append (l1 l2 : List Event) :
    executed (l1 ++ l2) = executed l1 ++ executed l2 := by
  induction l1 with
  | nil => rfl
  | cons e l ih => cases e <;> simp [executed, ih]

@[simp]
theorem logged_append (l1 l2 : List Event) :
    logged (l1 ++ l2) = logged l1 ++ logged l2 := by
  induction l1 with
  | nil => rfl
  | cons e l ih => cases e <;> simp [logged, ih]

@[simp]
theorem log_fs (msg : String) (s : State) : (log msg s).fs = s.fs := rfl

@[simp]
theorem log_trace (msg : String) (s : State) :
    (log msg s).trace = s.trace ++ [Event.log msg] := rfl

/-- The two ways `execSync` can end. -/
theorem execSync_cases (w : World) (cmd : String) (s : State) :
    (w.exitStatus s.trace cmd = 0 ∧
      execSync w cmd s = .ok () { s with trace := s.trace ++ [Event.exec cmd 0] })
    ∨ (w.exitStatus s.trace cmd ≠ 0 ∧
      execSync w cmd s = .thrown (.commandFailed cmd (w.exitStatus s.trace cmd))
        { s with trace := s.trace ++ [Event.exec cmd (w.exitStatus s.trace cmd)] }) := by
  by_cases h : w.exitStatus s.trace cmd = 0
  · left; simp [execSync, h]
  · right; simp [execSync, h]

/-! ## Claims about `detectPackageManager` and `selectEnvironment` -/

/-- C8: when the configured `packageManager` list has exactly one element,
`detectPackageManager` returns that element and leaves the state (and so the
trace of prompts) untouched. -/
theorem detectPackageManager_single (w : World) (config : Config) (s : State) (m : String)
    (h : config.packageManager = some [m]) :
    detectPackageManager w config s = (some m, s) := by
  simp [detectPackageManager, h]

theorem detectPackageManager_single_witness :
    detectPackageManager calmWorld
        { packageManager := some ["pnpm"], environments := [], sql_files := none,
          cleanup_after_production := none, docker_compose := none }
        { fs := [], trace := [] }
      = (some "pnpm", { fs := [], trace := [] }) :=
  detectPackageManager_single calmWorld _ _ "pnpm" rfl

/-- C9: when `environments` has exactly one key, `selectEnvironment` returns
that key without prompting (the state is unchanged), and a second call from any
other state returns the same key. -/
theorem selectEnvironment_single (w : World) (config : Config) (key : String)
    (questions : List Question) (s s1 : State) (h : config.environments = [(key, questions)]) :
    selectEnvironment w config s = (key, s) ∧ selectEnvironment w config s1 = (key, s1) := by
  simp [selectEnvironment, h, objectKeys_single]

theorem selectEnvironment_single_witness :
    selectEnvironment calmWorld
        { packageManager := none, environments := [("dev", [ask "PORT" "3000"])],
          sql_files := none, cleanup_after_production := none, docker_compose := none }
        { fs := [], trace := [] } = ("dev", { fs := [], trace := [] })
      ∧ selectEnvironment calmWorld
        { packageManager := none, environments := [("dev", [ask "PORT" "3000"])],
          sql_files := none, cleanup_after_production := none, docker_compose := none }
        { fs := [(".env", Node.file "PORT=3000")], trace := [Event.log "done"] }
          = ("dev", { fs := [(".env", Node.file "PORT=3000")], trace := [Event.log "done"] }) :=
  selectEnvironment_single calmWorld _ "dev" [ask "PORT" "3000"] _ _ rfl

/-- C6 (failing input): with `packageManager: []` the fallback to `["npm"]` is
not taken, no prompt is shown, and `detectPackageManager` returns `undefined`,
which is neither a member of the list nor `"npm"`; the install step then runs
the command `undefined install`. -/
theorem detectPackageManager_empty_list (w : World) (s : State) :
    detectPackageManager w
        { packageManager := some [], environments := [], sql_files := none,
          cleanup_after_production := none, docker_compose := none } s = (none, s)
    ∧ executed (initializeProject w none { fs := [], trace := [] }).state.trace
        = ["undefined install"] := by
  constructor
  · simp [detectPackageManager]
  · rcases execSync_cases w (render none ++ " install")
      (log ("📦 Installing dependencies using " ++ render none ++ "...") { fs := [], trace := [] })
      with ⟨_, h⟩ | ⟨_, h⟩ <;>
    · simp only [initializeProject, h]
      simp [Outcome.state, executed, render]

/-- With an absent list the result is `"npm"`; with a non-empty list it is a member
of the list whenever the prompt answers with one of its choices. -/
theorem detectPackageManager_member (w : World) (config : Config) (s : State)
    (hprompt : ∀ t name choices, choices ≠ [] → w.choose t name choices ∈ choices) :
    (config.packageManager = none → (detectPackageManager w config s).1 = some "npm")
      ∧ (∀ l, config.packageManager = some l → l ≠ [] →
          ∃ m ∈ l, (detectPackageManager w config s).1 = some m) := by
  constructor
  · intro h
    simp [detectPackageManager, h]
  · intro l h hl
    simp only [detectPackageManager, h, Option.getD_some]
    split
    · exact ⟨_, hprompt _ _ l hl, rfl⟩
    · cases l with
      | nil => exact absurd rfl hl
      | cons m rest => exact ⟨m, List.mem_cons_self _ _, by simp⟩

/-! ## Claims about `setupWizard` when `.env` exists -/

/-- C4: if `.env` exists when `setupWizard` starts, the wizard returns normally,
the file tree (hence `.env`) is unchanged, and the only effect added to the
trace is one log line: no prompt and no subprocess. -/
theorem setupWizard_env_exists (w : World) (config : Config) (s : State)
    (h : existsSync s.fs ".env" = true) :
    ∃ s1, setupWizard w config s = .ok () s1
      ∧ s1.fs = s.fs
      ∧ s1.trace = s.trace ++ [Event.log "⚠️ .env file already exists! Aborting setup."]
      ∧ s1.trace.filter Event.isPrompt = s.trace.filter Event.isPrompt
      ∧ executed s1.trace = executed s.trace := by
  refine ⟨log "⚠️ .env file already exists! Aborting setup." s, ?_, rfl, rfl, ?_, ?_⟩
  · simp [setupWizard, h]
  · simp [log, Event.isPrompt]
  · simp [executed]

theorem setupWizard_env_exists_witness :
    existsSync [(".env", Node.file "PORT=1")] ".env" = true ∧
    ∃ s1, setupWizard calmWorld
          { packageManager := none, environments := [("dev", [ask "PORT" "3000"])],
            sql_files := some ["a.sql"], cleanup_after_production := none,
            docker_compose := none }
          { fs := [(".env", Node.file "PORT=1")], trace := [] } = .ok () s1
      ∧ s1.fs = [(".env", Node.file "PORT=1")]
      ∧ s1.trace = [] ++ [Event.log "⚠️ .env file already exists! Aborting setup."]
      ∧ s1.trace.filter Event.isPrompt = [].filter Event.isPrompt
      ∧ executed s1.trace = executed [] :=
  ⟨by decide, setupWizard_env_exists calmWorld _ _ (by decide)⟩

/-! ## Frame lemmas: what a run never removes -/

theorem Keeps.refl (s : State) : Keeps s s := ⟨fun _ h => h, rfl⟩

theorem Keeps.trans {a b c : State} (h1 : Keeps a b) (h2 : Keeps b c) : Keeps a c :=
  ⟨fun e he => h2.1 e (h1.1 e he), h2.2.trans h1.2⟩

theorem keeps_log (msg : String) (s : State) : Keeps s (log msg s) :=
  ⟨fun _ h => h, by simp [Event.isRemoval]⟩

theorem keeps_execSync (w : World) (cmd : String) (s : State) :
    Keeps s (execSync w cmd s).state := by
  rcases execSync_cases w cmd s with ⟨_, h⟩ | ⟨_, h⟩ <;>
    exact h ▸ ⟨fun _ h => h, by simp [Outcome.state, Event.isRemoval]⟩

theorem keeps_detectPackageManager (w : World) (config : Config) (s : State) :
    Keeps s (detectPackageManager w config s).2 := by
  simp only [detectPackageManager]
  split
  · exact ⟨fun _ h => h, by simp [Event.isRemoval]⟩
  · exact Keeps.refl s

theorem keeps_selectEnvironment (w : World) (config : Config) (s : State) :
    Keeps s (selectEnvironment w config s).2 := by
  simp only [selectEnvironment]
  split
  · exact Keeps.refl s
  · exact ⟨fun _ h => h, by simp [Event.isRemoval]⟩

theorem selectEnvironment_fs (w : World) (config : Config) (s : State) :
    (selectEnvironment w config s).2.fs = s.fs := by
  simp only [selectEnvironment]
  split <;> rfl

theorem keeps_initializeProject (w : World) (pm : Option String) (s : State) :
    Keeps s (initializeProject w pm s).state := by
  have h := keeps_execSync w (render pm ++ " install")
    (log ("📦 Installing dependencies using " ++ render pm ++ "...") s)
  simp only [initializeProject]
  split
  · next heq => rw [heq] at h; exact (keeps_log _ s).trans h
  · next heq =>
    rw [heq] at h
    exact ((keeps_log _ s).trans h).trans (keeps_log _ _)

theorem keeps_runSqlFiles (w : World) (sqlFiles : List String) (s : State) :
    Keeps s (runSqlFiles w sqlFiles s).state := by
  induction sqlFiles generalizing s with
  | nil => exact Keeps.refl s
  | cons file rest ih =>
    simp only [runSqlFiles]
    split
    · exact (keeps_log _ s).trans (ih _)
    · have h := keeps_execSync w (psqlCommand w (w.pathJoin "sql" file))
        (log ("📑 Executing " ++ file ++ "...") s)
      split
      · next heq => rw [heq] at h; exact (keeps_log _ s).trans h
      · next heq => rw [heq] at h; exact ((keeps_log _ s).trans h).trans (ih _)

theorem keeps_runDatabaseSetup (w : World) (config : Config) (s : State) :
    Keeps s (runDatabaseSetup w config s).state := by
  simp only [runDatabaseSetup]
  split
  · exact (keeps_log _ s).trans (keeps_log _ _)
  · split
    · exact (keeps_log _ s).trans (keeps_log _ _)
    · have h := keeps_runSqlFiles w (config.sql_files.getD [])
        (log "📂 Running SQL files in order..." (log "📂 Checking for SQL files..." s))
      split
      · next heq => rw [heq] at h; exact ((keeps_log _ s).trans (keeps_log _ _)).trans h
      · next heq =>
        rw [heq] at h
        exact (((keeps_log _ s).trans (keeps_log _ _)).trans h).trans (keeps_log _ _)

/-- Writing a path that does not exist yet adds one entry and removes none. -/
theorem writeFileSync_fresh (path content : String) (s : State)
    (h : existsSync s.fs path = false) :
    writeFileSync path content s
      = .ok () { fs := s.fs ++ [(path, Node.file content)],
                 trace := s.trace ++ [Event.writeFile path content] } := by
  have hne : ∀ e ∈ s.fs, ¬ e.1 = path := by
    simpa [existsSync] using h
  have h1 : s.fs.any (fun e => e.1 == path && e.2 == Node.dir) = false := by
    simp only [List.any_eq_false, Bool.and_eq_true, beq_iff_eq, not_and]
    intro e he h2
    exact absurd h2 (hne e he)
  have h2 : s.fs.filter (fun e => e.1 != path) = s.fs := by
    rw [List.filter_eq_self]
    intro e he
    simpa using hne e he
  simp [writeFileSync, h1, h2]

theorem keeps_setupWizard (w : World) (config : Config) (s : State) :
    Keeps s (setupWizard w config s).state := by
  simp only [setupWizard]
  split
  · exact keeps_log _ s
  · next hex =>
    have hsel := keeps_selectEnvironment w config s
    have hfs := selectEnvironment_fs w config s
    split
    · exact hsel.trans (keeps_log _ _)
    · exact hsel.trans (keeps_log _ _)
    · next q qs _ =>
      have hfresh : existsSync (selectEnvironment w config s).2.fs ".env" = false := by
        rw [hfs]; simpa using hex
      rw [writeFileSync_fresh ".env" _
        ⟨(selectEnvironment w config s).2.fs, (selectEnvironment w config s).2.trace ++ _⟩ hfresh]
      simp only
      refine hsel.trans (Keeps.trans ?_ (keeps_runDatabaseSetup w config _))
      exact ⟨fun e he => by simp [he], by simp [Event.isRemoval]⟩

theorem keeps_runDockerCompose (w : World) (config : Config) (s : State) :
    Keeps s (runDockerCompose w config s).state := by
  simp only [runDockerCompose]
  split
  · have h := keeps_execSync w "docker-compose up -d" (log "🐳 Running Docker-Compose..." s)
    split
    · next heq => rw [heq] at h; exact (keeps_log _ s).trans h
    · next heq => rw [heq] at h; exact ((keeps_log _ s).trans h).trans (keeps_log _ _)
  · exact Keeps.refl s

theorem keeps_setupSteps (w : World) (config : Config) (s : State) :
    Keeps s (setupSteps w config s).state := by
  have h1 := keeps_detectPackageManager w config s
  have h2 := keeps_initializeProject w (detectPackageManager w config s).1
    (detectPackageManager w config s).2
  simp only [setupSteps]
  split
  · next heq => rw [heq] at h2; exact h1.trans h2
  · next s2 heq =>
    rw [heq] at h2
    have h3 := keeps_setupWizard w config s2
    split
    · next heq3 => rw [heq3] at h3; exact (h1.trans h2).trans h3
    · next s3 heq3 =>
      rw [heq3] at h3
      exact ((h1.trans h2).trans h3).trans (keeps_runDockerCompose w config s3)

/-- With cleanup disabled, `cleanupSetupFiles` returns at once. -/
theorem cleanupSetupFiles_disabled (config : Config) (s : State)
    (h : config.cleanup_after_production ≠ some true) :
    cleanupSetupFiles config s = .ok () s := by
  simp [cleanupSetupFiles, h]

theorem keeps_main (w : World) (config : Config) (s : State)
    (h : config.cleanup_after_production ≠ some true) :
    Keeps s (main w config s) := by
  have h1 := keeps_setupSteps w config s
  have hmain : (main w config s).fs = (tryBlock w config s).state.fs
      ∧ (main w config s).trace.filter Event.isRemoval
        = (tryBlock w config s).state.trace.filter Event.isRemoval := by
    unfold main
    split <;> simp_all [Outcome.state, Event.isRemoval]
  have htry : Keeps s (tryBlock w config s).state := by
    simp only [tryBlock]
    split
    · next heq => rw [heq] at h1; exact h1
    · next s4 heq =>
      rw [heq] at h1
      have h5 := keeps_selectEnvironment w config s4
      split
      · rw [cleanupSetupFiles_disabled _ _ h]; exact h1.trans h5
      · exact h1.trans h5
  exact ⟨fun e he => hmain.1 ▸ htry.1 e he, hmain.2.trans htry.2⟩

/-- C7: when `cleanup_after_production` is false or absent, `cleanupSetupFiles`
returns without any effect, and a whole run from any state keeps every entry
of the file tree and adds no removal (`unlinkSync`, `rmSync`) to the trace,
whatever the environment prompts answer. -/
theorem no_removal_when_cleanup_disabled (w : World) (config : Config) (s : State)
    (h : config.cleanup_after_production ≠ some true) :
    cleanupSetupFiles config s = .ok () s
      ∧ (∀ e ∈ s.fs, e ∈ (main w config s).fs)
      ∧ (main w config s).trace.filter Event.isRemoval = s.trace.filter Event.isRemoval :=
  ⟨cleanupSetupFiles_disabled config s h, (keeps_main w config s h).1, (keeps_main w config s h).2⟩

theorem no_removal_when_cleanup_disabled_witness :
    cleanupSetupFiles prodNoCleanup { fs := projectTree, trace := [] }
        = .ok () { fs := projectTree, trace := [] }
      ∧ (∀ e ∈ projectTree, e ∈ (main calmWorld prodNoCleanup { fs := projectTree, trace := [] }).fs)
      ∧ (main calmWorld prodNoCleanup { fs := projectTree, trace := [] }).trace.filter
          Event.isRemoval = [] :=
  no_removal_when_cleanup_disabled calmWorld prodNoCleanup { fs := projectTree, trace := [] }
    (by decide)

/-! ## The `.env` text of `setupWizard` -/

theorem execSync_fs (w : World) (cmd : String) (s : State) :
    (execSync w cmd s).state.fs = s.fs := by
  rcases execSync_cases w cmd s with ⟨_, h⟩ | ⟨_, h⟩ <;> rw [h] <;> rfl

theorem runSqlFiles_fs (w : World) (sqlFiles : List String) (s : State) :
    (runSqlFiles w sqlFiles s).state.fs = s.fs := by
  induction sqlFiles generalizing s with
  | nil => rfl
  | cons file rest ih =>
    simp only [runSqlFiles]
    split
    · rw [ih]; rfl
    · have h := execSync_fs w (psqlCommand w (w.pathJoin "sql" file))
        (log ("📑 Executing " ++ file ++ "...") s)
      split
      · next heq => rw [heq] at h; exact h
      · next heq => rw [heq] at h; rw [ih]; exact h

theorem runDatabaseSetup_fs (w : World) (config : Config) (s : State) :
    (runDatabaseSetup w config s).state.fs = s.fs := by
  simp only [runDatabaseSetup]
  split
  · rfl
  · split
    · rfl
    · have h := runSqlFiles_fs w (config.sql_files.getD [])
        (log "📂 Running SQL files in order..." (log "📂 Checking for SQL files..." s))
      split
      · next heq => rw [heq] at h; exact h
      · next heq => rw [heq] at h; exact h

theorem mem_objectEntries {α : Type} (obj : JSObject α) (e : String × α) :
    e ∈ objectEntries obj ↔ e ∈ obj := by
  unfold objectEntries
  rw [List.mem_append, (List.perm_insertionSort _ _).mem_iff, List.mem_filter, List.mem_filter]
  cases isArrayIndex e.1 <;> simp

/-- Without array-index keys, enumeration order is creation order. -/
theorem objectEntries_no_index {α : Type} (obj : JSObject α)
    (h : ∀ e ∈ obj, isArrayIndex e.1 = false) : objectEntries obj = obj := by
  have h1 : obj.filter (fun e => isArrayIndex e.1) = [] := by
    rw [List.filter_eq_nil_iff]
    intro e he; simp [h e he]
  have h2 : obj.filter (fun e => !isArrayIndex e.1) = obj := by
    rw [List.filter_eq_self]
    intro e he; simp [h e he]
  simp [objectEntries, h1, h2]

/-- What `setupWizard` leaves in the file tree once it has asked its questions. -/
theorem setupWizard_fs (w : World) (config : Config) (s : State) (q : Question)
    (qs : List Question) (hex : existsSync s.fs ".env" = false)
    (hq : config.environments.lookup (selectEnvironment w config s).1 = some (q :: qs)) :
    (setupWizard w config s).state.fs
      = s.fs ++ [(".env", Node.file
          (envContent (w.answers (selectEnvironment w config s).2.trace (q :: qs))))] := by
  have hfs := selectEnvironment_fs w config s
  have hfresh : existsSync (selectEnvironment w config s).2.fs ".env" = false := by
    rw [hfs]; exact hex
  simp only [setupWizard, hex, hq]
  rw [writeFileSync_fresh ".env" _
    ⟨(selectEnvironment w config s).2.fs, (selectEnvironment w config s).2.trace ++ _⟩ hfresh]
  simp only [Bool.false_eq_true, if_false]
  rw [runDatabaseSetup_fs, log_fs, hfs]

/-- C2 (amended): when `.env` is absent and the resolved environment has
questions, the file tree after `setupWizard` is the old one plus `.env`, whose
content is the entries of the answers object as `Object.entries` enumerates them,
each rendered `key=value`, joined by single newlines; when no key is an array
index that is the insertion order, and `{A: "1", B: "2"}` gives `A=1\nB=2`. -/
theorem setupWizard_env_content (w : World) (config : Config) (s : State) (q : Question)
    (qs : List Question) (answers : JSObject String)
    (hex : existsSync s.fs ".env" = false)
    (hq : config.environments.lookup (selectEnvironment w config s).1 = some (q :: qs))
    (ha : w.answers (selectEnvironment w config s).2.trace (q :: qs) = answers) :
    (setupWizard w config s).state.fs
        = s.fs ++ [(".env", Node.file
            ("\n".intercalate ((objectEntries answers).map (fun e => e.1 ++ "=" ++ e.2))))]
      ∧ ((∀ e ∈ answers, isArrayIndex e.1 = false) →
          (setupWizard w config s).state.fs
            = s.fs ++ [(".env", Node.file
                ("\n".intercalate (answers.map (fun e => e.1 ++ "=" ++ e.2))))])
      ∧ envContent [("A", "1"), ("B", "2")] = "A=1\nB=2" := by
  have h := setupWizard_fs w config s q qs hex hq
  rw [ha] at h
  refine ⟨h, ?_, by decide⟩
  intro hidx
  rw [h, envContent, objectEntries_no_index answers hidx]

theorem setupWizard_env_content_witness :
    existsSync ([] : FS) ".env" = false
      ∧ (setupWizard calmWorld
          { packageManager := none, environments := [("dev", [ask "A" "1", ask "B" "2"])],
            sql_files := none, cleanup_after_production := none, docker_compose := none }
          { fs := [], trace := [] }).state.fs
          = [] ++ [(".env", Node.file ("\n".intercalate
              ((objectEntries [("A", "1"), ("B", "2")]).map (fun e => e.1 ++ "=" ++ e.2))))]
      ∧ (setupWizard calmWorld
          { packageManager := none, environments := [("dev", [ask "A" "1", ask "B" "2"])],
            sql_files := none, cleanup_after_production := none, docker_compose := none }
          { fs := [], trace := [] }).state.fs
          = [] ++ [(".env", Node.file ("\n".intercalate
              ([("A", "1"), ("B", "2")].map (fun e => e.1 ++ "=" ++ e.2))))]
      ∧ (setupWizard calmWorld
          { packageManager := none, environments := [("dev", [ask "A" "1", ask "B" "2"])],
            sql_files := none, cleanup_after_production := none, docker_compose := none }
          { fs := [], trace := [] }).state.fs = [(".env", Node.file "A=1\nB=2")] :=
  ⟨by decide,
   (setupWizard_env_content calmWorld _ { fs := [], trace := [] } (ask "A" "1") [ask "B" "2"]
      [("A", "1"), ("B", "2")] (by decide) (by decide) (by decide)).1,
   (setupWizard_env_content calmWorld _ { fs := [], trace := [] } (ask "A" "1") [ask "B" "2"]
      [("A", "1"), ("B", "2")] (by decide) (by decide) (by decide)).2.1 (by decide),
   by decide⟩

/-- C2 (counterexample): the questions `B` then `1` are answered `2` and `x`, so the
answers object has `B` inserted before `1`; the `.env` written is `1=x\nB=2`, not
the insertion-order text `B=2\n1=x`. -/
theorem env_content_not_insertion_order :
    existsSync ([] : FS) ".env" = false
      ∧ calmWorld.answers [] [ask "B" "2", ask "1" "x"] = [("B", "2"), ("1", "x")]
      ∧ (setupWizard calmWorld
          { packageManager := none, environments := [("dev", [ask "B" "2", ask "1" "x"])],
            sql_files := none, cleanup_after_production := none, docker_compose := none }
          { fs := [], trace := [] }).state.fs = [(".env", Node.file "1=x\nB=2")]
      ∧ "\n".intercalate ([("B", "2"), ("1", "x")].map (fun e => e.1 ++ "=" ++ e.2)) = "B=2\n1=x"
      ∧ "1=x\nB=2" ≠ "B=2\n1=x" := by
  decide

/-! ## Reading the text back -/

theorem splitChars_ne_nil (sep : Char) (cs : List Char) : splitChars sep cs ≠ [] := by
  cases cs with
  | nil => simp [splitChars]
  | cons c cs => simp only [splitChars]; split <;> simp

theorem splitChars_append (sep : Char) (x y : List Char) :
    splitChars sep (x ++ sep :: y) = splitChars sep x ++ splitChars sep y := by
  induction x with
  | nil => simp [splitChars]
  | cons c x ih =>
    have hne := splitChars_ne_nil sep x
    have hstep : splitChars sep (c :: (x ++ sep :: y))
        = if c = sep then [] :: splitChars sep (x ++ sep :: y)
          else (c :: (splitChars sep (x ++ sep :: y)).headD [])
            :: (splitChars sep (x ++ sep :: y)).tail := rfl
    have hstep2 : splitChars sep (c :: x)
        = if c = sep then [] :: splitChars sep x
          else (c :: (splitChars sep x).headD []) :: (splitChars sep x).tail := rfl
    rw [List.cons_append, hstep, hstep2, ih]
    by_cases hc : c = sep
    · simp [hc]
    · cases hx : splitChars sep x with
      | nil => exact absurd hx hne
      | cons l ls => simp [hc]

theorem splitChars_none (sep : Char) (cs : List Char) (h : sep ∉ cs) :
    splitChars sep cs = [cs] := by
  induction cs with
  | nil => rfl
  | cons c cs ih =>
    have hc : ¬ c = sep := fun hc => h (hc ▸ List.mem_cons_self _ _)
    have hcs : sep ∉ cs := fun hm => h (List.mem_cons_of_mem _ hm)
    simp [splitChars, hc, ih hcs]

theorem breakAt_append (sep : Char) (k v : List Char) (h : sep ∉ k) :
    breakAt sep (k ++ sep :: v) = (k, v) := by
  induction k with
  | nil => simp [breakAt]
  | cons c k ih =>
    have hc : ¬ c = sep := fun hc => h (hc ▸ List.mem_cons_self _ _)
    have hk : sep ∉ k := fun hm => h (List.mem_cons_of_mem _ hm)
    simp [breakAt, hc, ih hk]

theorem splitChars_intercalate_go (acc : String) (lines : List String)
    (h : ∀ l ∈ lines, '\n' ∉ l.data) :
    splitChars '\n' (String.intercalate.go acc "\n" lines).data
      = splitChars '\n' acc.data ++ lines.map String.data := by
  induction lines generalizing acc with
  | nil => simp [String.intercalate.go]
  | cons l ls ih =>
    have hl : '\n' ∉ l.data := h l (List.mem_cons_self _ _)
    have hls : ∀ x ∈ ls, '\n' ∉ x.data := fun x hx => h x (List.mem_cons_of_mem _ hx)
    have happ : (acc ++ "\n" ++ l).data = acc.data ++ '\n' :: l.data := by
      simp [String.data_append]
    rw [String.intercalate.go, ih _ hls, happ, splitChars_append, splitChars_none _ _ hl]
    simp

/-- Splitting a newline-joined text gives back the lines joined. -/
theorem splitChars_intercalate (lines : List String) (hne : lines ≠ [])
    (h : ∀ l ∈ lines, '\n' ∉ l.data) :
    splitChars '\n' ("\n".intercalate lines).data = lines.map String.data := by
  cases lines with
  | nil => exact absurd rfl hne
  | cons l ls =>
    have hl : '\n' ∉ l.data := h l (List.mem_cons_self _ _)
    have hls : ∀ x ∈ ls, '\n' ∉ x.data := fun x hx => h x (List.mem_cons_of_mem _ hx)
    rw [String.intercalate, splitChars_intercalate_go _ _ hls, splitChars_none _ _ hl]
    simp

/-- Reading back the rendering of well-formed entries recovers them. -/
theorem parseEnv_render (entries : List (String × String)) (hne : entries ≠ [])
    (hk : ∀ e ∈ entries, '=' ∉ e.1.data ∧ '\n' ∉ e.1.data)
    (hv : ∀ e ∈ entries, '\n' ∉ e.2.data) :
    parseEnv ("\n".intercalate (entries.map (fun e => e.1 ++ "=" ++ e.2))) = entries := by
  have hlines : ∀ l ∈ entries.map (fun e => e.1 ++ "=" ++ e.2), '\n' ∉ l.data := by
    intro l hl
    obtain ⟨e, he, rfl⟩ := List.mem_map.1 hl
    have h1 := (hk e he).2
    have h2 := hv e he
    simp [String.data_append, h1, h2]
  have hne2 : entries.map (fun e => e.1 ++ "=" ++ e.2) ≠ [] := by
    simpa using hne
  rw [parseEnv, splitChars_intercalate _ hne2 hlines, List.map_map, List.map_map]
  conv_rhs => rw [← List.map_id entries]
  apply List.map_congr_left
  intro e he
  have hb : breakAt '=' (e.1 ++ "=" ++ e.2).data = (e.1.data, e.2.data) := by
    have : (e.1 ++ "=" ++ e.2).data = e.1.data ++ '=' :: e.2.data := by
      simp [String.data_append]
    rw [this, breakAt_append _ _ _ (hk e he).1]
  simp only [Function.comp, hb, id]

/-- C10 (amended): for a non-empty answers object whose keys hold neither `=` nor
a newline and whose values hold no newline, reading the `.env` text back (split
on newlines, each line at its first `=`) yields the entries in `Object.entries`
order, which are the original pairs in insertion order when no key is an array
index; and an answer with a newline in its value gives more lines than entries. -/
theorem env_roundtrip (answers : JSObject String) (hne : answers ≠ [])
    (hk : ∀ e ∈ answers, '=' ∉ e.1.data ∧ '\n' ∉ e.1.data)
    (hv : ∀ e ∈ answers, '\n' ∉ e.2.data) :
    parseEnv (envContent answers) = objectEntries answers
      ∧ ((∀ e ∈ answers, isArrayIndex e.1 = false) → parseEnv (envContent answers) = answers)
      ∧ ∃ broken : JSObject String,
          (∃ e ∈ broken, '\n' ∈ e.2.data)
            ∧ broken.length < (splitLines (envContent broken)).length := by
  have hne2 : objectEntries answers ≠ [] := by
    obtain ⟨e, he⟩ := List.exists_mem_of_ne_nil _ hne
    exact List.ne_nil_of_mem ((mem_objectEntries answers e).2 he)
  have hmain : parseEnv (envContent answers) = objectEntries answers :=
    parseEnv_render (objectEntries answers) hne2
      (fun e he => hk e ((mem_objectEntries answers e).1 he))
      (fun e he => hv e ((mem_objectEntries answers e).1 he))
  refine ⟨hmain, ?_, ⟨[("A", "1\n2")], by decide, by decide⟩⟩
  intro hidx
  rw [hmain, objectEntries_no_index answers hidx]

theorem env_roundtrip_witness :
    (∀ e ∈ [("HOST", "db"), ("URL", "a=b")], '=' ∉ e.1.data ∧ '\n' ∉ e.1.data ∧ '\n' ∉ e.2.data)
      ∧ envContent [("HOST", "db"), ("URL", "a=b")] = "HOST=db\nURL=a=b"
      ∧ parseEnv (envContent [("HOST", "db"), ("URL", "a=b")])
          = objectEntries [("HOST", "db"), ("URL", "a=b")]
      ∧ parseEnv (envContent [("HOST", "db"), ("URL", "a=b")]) = [("HOST", "db"), ("URL", "a=b")] :=
  ⟨by decide, by decide,
   (env_roundtrip [("HOST", "db"), ("URL", "a=b")] (by decide) (by decide) (by decide)).1,
   (env_roundtrip [("HOST", "db"), ("URL", "a=b")] (by decide) (by decide) (by decide)).2.1
      (by decide)⟩

/-- C10 (counterexample): the well-formed answers `PORT` then `0` are written as
`0=x\nPORT=80`; reading that back yields `0` before `PORT`, not the original
order of the pairs. -/
theorem env_roundtrip_reorders :
    (∀ e ∈ [("PORT", "80"), ("0", "x")], '=' ∉ e.1.data ∧ '\n' ∉ e.1.data ∧ '\n' ∉ e.2.data)
      ∧ envContent [("PORT", "80"), ("0", "x")] = "0=x\nPORT=80"
      ∧ parseEnv (envContent [("PORT", "80"), ("0", "x")]) = [("0", "x"), ("PORT", "80")]
      ∧ parseEnv (envContent [("PORT", "80"), ("0", "x")]) ≠ [("PORT", "80"), ("0", "x")] := by
  decide

/-! ## `runDatabaseSetup` -/

theorem calm_nil : Calm [] := by
  intro e he; cases he

theorem calm_append {t d : List Event} (ht : Calm t) (hd : Calm d) : Calm (t ++ d) := by
  intro e he
  rcases List.mem_append.1 he with h | h
  · exact ht e h
  · exact hd e h

theorem calm_single (e : Event) (h1 : e.isFailedExec = false) (h2 : e.isError = false) :
    Calm [e] := by
  intro x hx
  rw [List.mem_singleton] at hx
  subst hx
  exact ⟨h1, h2⟩

theorem calm_log {s : State} (msg : String) (h : Calm s.trace) : Calm (log msg s).trace :=
  calm_append h (calm_single _ rfl rfl)

/-- Sequencing: a throw is passed on, a normal return continues. -/
theorem orderly_seq {β : Type} {r : Outcome Unit} {k : State → Outcome β} (hr : Orderly r)
    (hk : ∀ s1 : State, Calm s1.trace → Orderly (k s1)) :
    Orderly (match r with
      | .thrown err s2 => .thrown err s2
      | .ok _ s2 => k s2) := by
  cases r with
  | ok v s1 => exact hk s1 hr
  | thrown err s1 => exact hr

theorem orderly_execSync (w : World) (cmd : String) (s : State) (h : Calm s.trace) :
    Orderly (execSync w cmd s) := by
  rcases execSync_cases w cmd s with ⟨_, hx⟩ | ⟨hne, hx⟩
  · rw [hx]; exact calm_append h (calm_single _ rfl rfl)
  · rw [hx]; exact Or.inl ⟨s.trace, cmd, _, h, hne, rfl, rfl⟩

theorem calm_detectPackageManager (w : World) (config : Config) (s : State) (h : Calm s.trace) :
    Calm (detectPackageManager w config s).2.trace := by
  simp only [detectPackageManager]
  split
  · exact calm_append h (calm_single _ rfl rfl)
  · exact h

theorem calm_selectEnvironment (w : World) (config : Config) (s : State) (h : Calm s.trace) :
    Calm (selectEnvironment w config s).2.trace := by
  simp only [selectEnvironment]
  split
  · exact h
  · exact calm_append h (calm_single _ rfl rfl)

theorem orderly_initializeProject (w : World) (pm : Option String) (s : State)
    (h : Calm s.trace) : Orderly (initializeProject w pm s) := by
  simp only [initializeProject]
  exact orderly_seq (orderly_execSync w _ _ (calm_log _ h)) (fun s1 h1 => calm_log _ h1)

theorem orderly_runSqlFiles (w : World) (files : List String) (s : State) (h : Calm s.trace) :
    Orderly (runSqlFiles w files s) := by
  induction files generalizing s with
  | nil => exact h
  | cons file rest ih =>
    simp only [runSqlFiles]
    split
    · exact ih _ (calm_log _ h)
    · exact orderly_seq (orderly_execSync w _ _ (calm_log _ h)) (fun s1 h1 => ih s1 h1)

theorem orderly_runDatabaseSetup (w : World) (config : Config) (s : State) (h : Calm s.trace) :
    Orderly (runDatabaseSetup w config s) := by
  simp only [runDatabaseSetup]
  split
  · exact calm_log _ (calm_log _ h)
  · split
    · exact calm_log _ (calm_log _ h)
    · exact orderly_seq (orderly_runSqlFiles w _ _ (calm_log _ (calm_log _ h)))
        (fun s1 h1 => calm_log _ h1)

theorem orderly_writeFileSync (path content : String) (s : State) (h : Calm s.trace) :
    Orderly (writeFileSync path content s) := by
  simp only [writeFileSync]
  split
  · exact Or.inr ⟨⟨_, _, rfl⟩, h⟩
  · exact calm_append h (calm_single _ rfl rfl)

theorem orderly_unlinkSync (path : String) (s : State) (h : Calm s.trace) :
    Orderly (unlinkSync path s) := by
  simp only [unlinkSync]
  split
  · exact Or.inr ⟨⟨_, _, rfl⟩, h⟩
  · exact calm_append h (calm_single _ rfl rfl)

theorem orderly_setupWizard (w : World) (config : Config) (s : State) (h : Calm s.trace) :
    Orderly (setupWizard w config s) := by
  have hsel := calm_selectEnvironment w config s h
  simp only [setupWizard]
  split
  · exact calm_log _ h
  · split
    · exact calm_log _ hsel
    · exact calm_log _ hsel
    · exact orderly_seq
        (orderly_writeFileSync _ _ _ (calm_append hsel (calm_single _ rfl rfl)))
        (fun s1 h1 => orderly_runDatabaseSetup w config _ (calm_log _ h1))

theorem orderly_runDockerCompose (w : World) (config : Config) (s : State) (h : Calm s.trace) :
    Orderly (runDockerCompose w config s) := by
  simp only [runDockerCompose]
  split
  · exact orderly_seq (orderly_execSync w _ _ (calm_log _ h)) (fun s1 h1 => calm_log _ h1)
  · exact h

theorem orderly_setupSteps (w : World) (config : Config) (s : State) (h : Calm s.trace) :
    Orderly (setupSteps w config s) := by
  simp only [setupSteps]
  exact orderly_seq (orderly_initializeProject w _ _ (calm_detectPackageManager w config s h))
    (fun s2 h2 => orderly_seq (orderly_setupWizard w config s2 h2)
      (fun s3 h3 => orderly_runDockerCompose w config s3 h3))

theorem orderly_removeFiles (files : List String) (s : State) (h : Calm s.trace) :
    Orderly (removeFiles files s) := by
  induction files generalizing s with
  | nil => exact h
  | cons file rest ih =>
    simp only [removeFiles]
    split
    · exact orderly_seq (orderly_unlinkSync file s h) (fun s1 h1 => ih _ (calm_log _ h1))
    · exact ih s h

theorem calm_removeDirectories (dirs : List String) (s : State) (h : Calm s.trace) :
    Calm (removeDirectories dirs s).trace := by
  induction dirs generalizing s with
  | nil => exact h
  | cons dir rest ih =>
    simp only [removeDirectories]
    split
    · exact ih _ (calm_log _ (calm_append h (calm_single _ rfl rfl)))
    · exact ih s h

theorem orderly_cleanupSetupFiles (config : Config) (s : State) (h : Calm s.trace) :
    Orderly (cleanupSetupFiles config s) := by
  simp only [cleanupSetupFiles]
  split
  · exact h
  · exact orderly_seq (orderly_removeFiles _ _ (calm_log _ h))
      (fun s1 h1 => calm_log _ (calm_removeDirectories _ s1 h1))

theorem orderly_tryBlock (w : World) (config : Config) (s : State) (h : Calm s.trace) :
    Orderly (tryBlock w config s) := by
  simp only [tryBlock]
  refine orderly_seq (orderly_setupSteps w config s h) (fun s4 h4 => ?_)
  have h5 := calm_selectEnvironment w config s4 h4
  split
  · exact orderly_cleanupSetupFiles config _ h5
  · exact h5

/-- A list has at most one way to be cut at an element satisfying `P` when the
parts around a known such element do not satisfy it. -/
theorem cut_unique (P : Event → Bool) (d r : List Event) (e : Event) (hd : ∀ x ∈ d, P x = false)
    (hr : ∀ x ∈ r, P x = false) (pre post : List Event) (a : Event) (ha : P a = true)
    (h : d ++ e :: r = pre ++ a :: post) : pre = d ∧ a = e ∧ post = r := by
  induction d generalizing pre with
  | nil =>
    cases pre with
    | nil =>
      simp only [List.nil_append, List.cons.injEq] at h
      exact ⟨rfl, h.1.symm, h.2.symm⟩
    | cons x pre1 =>
      simp only [List.nil_append, List.cons_append, List.cons.injEq] at h
      have hmem : a ∈ r := by rw [h.2]; simp
      rw [hr a hmem] at ha
      cases ha
  | cons y d1 ih =>
    cases pre with
    | nil =>
      simp only [List.nil_append, List.cons_append, List.cons.injEq] at h
      rw [← h.1, hd y (List.mem_cons_self _ _)] at ha
      cases ha
    | cons x pre1 =>
      simp only [List.cons_append, List.cons.injEq] at h
      obtain ⟨h1, h2, h3⟩ := ih (fun z hz => hd z (List.mem_cons_of_mem _ hz)) pre1 h.2
      exact ⟨by rw [h1, h.1], h2, h3⟩

theorem calm_no_failed_exec {t : List Event} (ht : Calm t) (pre post : List Event)
    (cmd : String) (status : Nat) (hst : status ≠ 0) :
    t ≠ pre ++ Event.exec cmd status :: post := by
  intro h
  have hmem : Event.exec cmd status ∈ t := by rw [h]; simp
  have := (ht _ hmem).1
  simp [Event.isFailedExec, hst] at this

/-- C5: in a run from a fresh trace, if some subprocess exits non-zero then the
only effect after it is the single `console.error` of the top-level handler,
carrying that failure: no later subprocess, prompt, write or removal; and the
whole trace holds exactly one `console.error`. -/
theorem failure_stops_run (w : World) (config : Config) (fs : FS) (pre post : List Event)
    (cmd : String) (status : Nat)
    (hrun : (main w config { fs := fs, trace := [] }).trace = pre ++ Event.exec cmd status :: post)
    (hst : status ≠ 0) :
    post = [Event.error "❌ Error during setup:" (JSError.commandFailed cmd status)]
      ∧ ((main w config { fs := fs, trace := [] }).trace.filter Event.isError).length = 1 := by
  have hord := orderly_tryBlock w config { fs := fs, trace := [] } calm_nil
  unfold main at hrun ⊢
  cases htry : tryBlock w config { fs := fs, trace := [] } with
  | ok v s1 =>
    rw [htry] at hord hrun
    exact absurd hrun (calm_no_failed_exec hord pre post cmd status hst)
  | thrown err s1 =>
    rw [htry] at hord hrun
    simp only at hrun ⊢
    rcases hord with ⟨d, c, st, hd, hne, herr, htr⟩ | ⟨_, hcalm⟩
    · rw [htr, List.append_assoc, List.singleton_append] at hrun
      obtain ⟨hpre, hev, hpost⟩ := cut_unique Event.isFailedExec d
        [Event.error "❌ Error during setup:" err] (Event.exec c st)
        (fun x hx => (hd x hx).1) (by simp [Event.isFailedExec]) pre post
        (Event.exec cmd status) (by simp [Event.isFailedExec, hst]) hrun
      have hcs : cmd = c ∧ status = st := by simpa using hev
      refine ⟨by rw [hpost, herr, hcs.1, hcs.2], ?_⟩
      have hdn : d.filter Event.isError = [] := by
        rw [List.filter_eq_nil_iff]
        intro x hx; simp [(hd x hx).2]
      rw [htr]
      simp [List.filter_append, hdn, Event.isError]
    · exfalso
      have hmem : Event.exec cmd status ∈ s1.trace := by
        have : Event.exec cmd status ∈ s1.trace ++ [Event.error "❌ Error during setup:" err] := by
          rw [hrun]; simp
        simpa using this
      have := (hcalm _ hmem).1
      simp [Event.isFailedExec, hst] at this

theorem failure_stops_run_witness :
    (main failingWorld prodNoCleanup { fs := projectTree, trace := [] }).trace
        = [Event.log "📦 Installing dependencies using npm..."]
          ++ Event.exec "npm install" 1
            :: [Event.error "❌ Error during setup:" (JSError.commandFailed "npm install" 1)]
      ∧ ([Event.error "❌ Error during setup:" (JSError.commandFailed "npm install" 1)]
          = [Event.error "❌ Error during setup:" (JSError.commandFailed "npm install" 1)]
        ∧ ((main failingWorld prodNoCleanup { fs := projectTree, trace := [] }).trace.filter
            Event.isError).length = 1) :=
  ⟨by decide,
   failure_stops_run failingWorld prodNoCleanup projectTree
    [Event.log "📦 Installing dependencies using npm..."]
    [Event.error "❌ Error during setup:" (JSError.commandFailed "npm install" 1)]
    "npm install" 1 (by decide) (by decide)⟩

/-! ## Cleanup after a `prod` setup -/

theorem existsSync_filter (fs : FS) (keep : String × Node → Bool) (path : String)
    (h : existsSync fs path = false) : existsSync (fs.filter keep) path = false := by
  simp only [existsSync, List.any_eq_false, List.mem_filter] at h ⊢
  exact fun e he => h e he.1

theorem unlinkSync_ok (path : String) (s s1 : State) (h : unlinkSync path s = .ok () s1) :
    existsSync s1.fs path = false
      ∧ (∀ other, existsSync s.fs other = false → existsSync s1.fs other = false)
      ∧ ∀ e ∈ s.trace, e ∈ s1.trace := by
  simp only [unlinkSync] at h
  split at h
  · cases h
  · simp only [Outcome.ok.injEq, true_and] at h
    subst h
    refine ⟨?_, fun other ho => existsSync_filter _ _ _ ho, fun e he => by simp [he]⟩
    simp [existsSync]

theorem removeFiles_ok (files : List String) (s s1 : State)
    (h : removeFiles files s = .ok () s1) :
    (∀ f ∈ files, existsSync s1.fs f = false)
      ∧ (∀ other, existsSync s.fs other = false → existsSync s1.fs other = false)
      ∧ ∀ e ∈ s.trace, e ∈ s1.trace := by
  induction files generalizing s with
  | nil =>
    simp only [removeFiles, Outcome.ok.injEq, true_and] at h
    subst h
    exact ⟨fun f hf => (by cases hf), fun _ ho => ho, fun _ he => he⟩
  | cons file rest ih =>
    simp only [removeFiles] at h
    split at h
    · split at h
      · cases h
      · next s2 heq =>
        obtain ⟨hgone, hkeep, htr⟩ := unlinkSync_ok file s s2 heq
        obtain ⟨h1, h2, h3⟩ := ih _ h
        refine ⟨?_, fun other ho => h2 other (hkeep other ho),
          fun e he => h3 e (by simp [htr e he])⟩
        intro f hf
        rcases List.mem_cons.1 hf with rfl | hf
        · exact h2 f hgone
        · exact h1 f hf
    · next hno =>
      obtain ⟨h1, h2, h3⟩ := ih _ h
      refine ⟨?_, h2, h3⟩
      intro f hf
      rcases List.mem_cons.1 hf with rfl | hf
      · exact h2 f (by simpa using hno)
      · exact h1 f hf

theorem removeDirectories_gone (dirs : List String) (s : State) :
    (∀ d ∈ dirs, existsSync (removeDirectories dirs s).fs d = false)
      ∧ (∀ other, existsSync s.fs other = false →
          existsSync (removeDirectories dirs s).fs other = false)
      ∧ ∀ e ∈ s.trace, e ∈ (removeDirectories dirs s).trace := by
  induction dirs generalizing s with
  | nil => exact ⟨fun d hd => (by cases hd), fun _ ho => ho, fun _ he => he⟩
  | cons dir rest ih =>
    simp only [removeDirectories]
    split
    · obtain ⟨h1, h2, h3⟩ := ih (log ("🗑️ Removed directory: " ++ dir) (rmSync dir s))
      have hgone : existsSync (rmSync dir s).fs dir = false := by
        simp only [existsSync, rmSync, List.any_eq_false, List.mem_filter]
        intro e he
        have := he.2
        simp only [isWithin, Bool.not_eq_true', Bool.or_eq_false_iff] at this
        simpa using this.1
      refine ⟨?_, fun other ho => h2 other (existsSync_filter _ _ _ ho),
        fun e he => h3 e (by simp [rmSync, he])⟩
      intro d hd
      rcases List.mem_cons.1 hd with rfl | hd
      · exact h2 d hgone
      · exact h1 d hd
    · next hno =>
      obtain ⟨h1, h2, h3⟩ := ih s
      refine ⟨?_, h2, h3⟩
      intro d hd
      rcases List.mem_cons.1 hd with rfl | hd
      · exact h2 d (by simpa using hno)
      · exact h1 d hd

/-- An enabled cleanup that returns normally leaves none of its three targets. -/
theorem cleanupSetupFiles_ok (config : Config) (s s1 : State)
    (hflag : config.cleanup_after_production = some true)
    (h : cleanupSetupFiles config s = .ok () s1) :
    Event.log "🗑️ Cleaning up setup files..." ∈ s1.trace
      ∧ existsSync s1.fs "setup.js" = false
      ∧ existsSync s1.fs "setup.config.json" = false
      ∧ existsSync s1.fs "sql" = false := by
  simp only [cleanupSetupFiles, hflag, bne_self_eq_false, Bool.false_eq_true, if_false] at h
  split at h
  · cases h
  · next s2 heq =>
    simp only [Outcome.ok.injEq, true_and] at h
    subst h
    obtain ⟨h1, _, h2⟩ := removeFiles_ok _ _ _ heq
    obtain ⟨h3, h4, h5⟩ := removeDirectories_gone ["sql"] s2
    refine ⟨?_, h4 _ (h1 "setup.js" (by simp)), h4 _ (h1 "setup.config.json" (by simp)),
      h3 "sql" (by simp)⟩
    have : Event.log "🗑️ Cleaning up setup files..." ∈ (removeDirectories ["sql"] s2).trace :=
      h5 _ (h2 _ (by simp))
    simp [this]

/-- C1 (amended): with `cleanup_after_production` true, if the steps before the
cleanup decision return normally, the `selectEnvironment` call of that decision
resolves to `"prod"`, and the `try` block ends without a throw, then the run is
the run of `cleanupSetupFiles` from there: its start is logged and afterwards
none of `setup.js`, `setup.config.json` and `sql` exists. -/
theorem cleanup_runs_for_prod (w : World) (config : Config) (s s4 : State)
    (hflag : config.cleanup_after_production = some true)
    (hsteps : setupSteps w config s = .ok () s4)
    (henv : (selectEnvironment w config s4).1 = "prod")
    (hok : (tryBlock w config s).isOk = true) :
    tryBlock w config s = cleanupSetupFiles config (selectEnvironment w config s4).2
      ∧ Event.log "🗑️ Cleaning up setup files..." ∈ (main w config s).trace
      ∧ existsSync (main w config s).fs "setup.js" = false
      ∧ existsSync (main w config s).fs "setup.config.json" = false
      ∧ existsSync (main w config s).fs "sql" = false := by
  have htry : tryBlock w config s = cleanupSetupFiles config (selectEnvironment w config s4).2 := by
    simp [tryBlock, hsteps, henv]
  refine ⟨htry, ?_⟩
  cases hc : cleanupSetupFiles config (selectEnvironment w config s4).2 with
  | thrown err s6 =>
    rw [htry, hc] at hok
    cases hok
  | ok v s6 =>
    have hmain : main w config s = s6 := by
      simp [main, htry, hc]
    rw [hmain]
    exact cleanupSetupFiles_ok config _ s6 hflag hc

theorem cleanup_runs_for_prod_witness :
    setupSteps calmWorld prodCleanup { fs := projectTree, trace := [] }
        = .ok () (setupSteps calmWorld prodCleanup { fs := projectTree, trace := [] }).state
      ∧ (main calmWorld prodCleanup { fs := projectTree, trace := [] }).fs
          = [(".env", Node.file "PORT=80")]
      ∧ (tryBlock calmWorld prodCleanup { fs := projectTree, trace := [] }
          = cleanupSetupFiles prodCleanup
              (selectEnvironment calmWorld prodCleanup
                (setupSteps calmWorld prodCleanup { fs := projectTree, trace := [] }).state).2
        ∧ Event.log "🗑️ Cleaning up setup files..."
            ∈ (main calmWorld prodCleanup { fs := projectTree, trace := [] }).trace
        ∧ existsSync (main calmWorld prodCleanup { fs := projectTree, trace := [] }).fs "setup.js"
            = false
        ∧ existsSync (main calmWorld prodCleanup { fs := projectTree, trace := [] }).fs
            "setup.config.json" = false
        ∧ existsSync (main calmWorld prodCleanup { fs := projectTree, trace := [] }).fs "sql"
            = false) :=
  ⟨rfl, by decide,
   cleanup_runs_for_prod calmWorld prodCleanup { fs := projectTree, trace := [] }
    (setupSteps calmWorld prodCleanup { fs := projectTree, trace := [] }).state
    rfl rfl (by decide) (by decide)⟩

/-- C1 (counterexample): the only environment is named `production`, cleanup is
enabled and every step succeeds; `selectEnvironment` resolves to `production`,
the run logs no error, yet no cleanup is run: nothing is removed and
`setup.js`, `setup.config.json` and `sql` still exist at the end. -/
theorem no_cleanup_for_production :
    productionCleanup.cleanup_after_production = some true
      ∧ (selectEnvironment calmWorld productionCleanup { fs := projectTree, trace := [] }).1
          = "production"
      ∧ (tryBlock calmWorld productionCleanup { fs := projectTree, trace := [] }).isOk = true
      ∧ (main calmWorld productionCleanup { fs := projectTree, trace := [] }).trace.filter
          Event.isRemoval = []
      ∧ (main calmWorld productionCleanup { fs := projectTree, trace := [] }).trace.filter
          Event.isError = []
      ∧ existsSync (main calmWorld productionCleanup { fs := projectTree, trace := [] }).fs
          "setup.js" = true
      ∧ existsSync (main calmWorld productionCleanup { fs := projectTree, trace := [] }).fs
          "setup.config.json" = true
      ∧ existsSync (main calmWorld productionCleanup { fs := projectTree, trace := [] }).fs
          "sql" = true := by
  decide

end Setup
